import Mathlib

/-!
Verification development for the acad-cmd repository.

This file gives a shallow embedding, in Lean 4, of the core operations of
the repository (src/acad_cmd/autocad_bridge.py, src/acad_cmd/output_log.py,
src/acad_cmd/server.py) and proves or refutes the frozen behavioural claims
about them.  Machine integers are modelled as Nat/Int (no overflow is
relevant to any claim), fallible reads as Option, raised exceptions as
explicit result variants, and real time as a poll index with a deadline.
-/

namespace AcadCmd

/-! ## autocad_bridge.wait_for_idle

Embedding of `AutoCADBridge.wait_for_idle` (autocad_bridge.py lines
407-433).  Each iteration of the Python loop reads two signals from the
endpoint; either read can raise.  We model the sequence of reads as a
function from the poll index to a `PollObs`.  Real time is modelled by a
`deadline`: the index of the first poll at which `time.time() - t0 >=
timeout_sec` holds (real time is monotone, so the check holds at every
later poll as well). -/

/-- Result record mirroring the Python dataclass `WaitResult`. -/
structure WaitResult where
  completed : Bool
  needs_input : Bool
  quiescent : Bool
  deriving DecidableEq, Repr

/-- Observation made by one iteration of the polling loop.  `none` in a
field means the corresponding read raised an exception in the source. -/
structure PollObs where
  isQuiescentRead : Option Bool
  cmdactiveRead : Option Int
  deriving DecidableEq, Repr

/-- Source: `is_quiescent = bool(state.IsQuiescent)` with `except: is_quiescent = False`. -/
def pollQuiescent (o : PollObs) : Bool :=
  o.isQuiescentRead.getD false

/-- Source: `cmdactive = int(self.get_variable("CMDACTIVE"))` with
`except: cmdactive = 999`. -/
def pollCmdactive (o : PollObs) : Int :=
  o.cmdactiveRead.getD 999

/-- One loop of `wait_for_idle`, by fuel recursion; `k` is the current poll
index.  Returns the result together with the index of the final poll.
Fuel `deadline + 1` is always sufficient because the `deadline ≤ k` branch
fires at `k = deadline` at the latest. -/
def wait_for_idle_go (obs : Nat → PollObs) (deadline : Nat) : Nat → Nat → WaitResult × Nat
  | 0, k =>
      let q := pollQuiescent (obs k)
      let c := pollCmdactive (obs k)
      if q = true ∧ c = 0 then
        ({ completed := true, needs_input := false, quiescent := true }, k)
      else
        ({ completed := false, needs_input := c ≠ 0, quiescent := q }, k)
  | fuel + 1, k =>
      let q := pollQuiescent (obs k)
      let c := pollCmdactive (obs k)
      if q = true ∧ c = 0 then
        ({ completed := true, needs_input := false, quiescent := true }, k)
      else if deadline ≤ k then
        ({ completed := false, needs_input := c ≠ 0, quiescent := q }, k)
      else
        wait_for_idle_go obs deadline fuel (k + 1)

/-- Embedding of `AutoCADBridge.wait_for_idle`. -/
def wait_for_idle (obs : Nat → PollObs) (deadline : Nat) : WaitResult × Nat :=
  wait_for_idle_go obs deadline (deadline + 1) 0

/-! ## autocad_bridge.com_retry

Embedding of `com_retry` (autocad_bridge.py lines 140-154) together with
`_is_callee_busy` (lines 123-137).  The wrapped callable is modelled as a
function from the attempt index to an outcome; an exception carries a
single bit, whether `_is_callee_busy` classifies it as the well-known
RPC_E_CALL_REJECTED "callee busy" error.  Delays are exact rationals
(seconds): base 0.05 = 1/20, growth factor 1.6 = 8/5, cap 0.8 = 4/5. -/

/-- Outcome of one call of the wrapped function: a value, or a raised
exception classified by `_is_callee_busy`. -/
inductive CallOutcome (α : Type) where
  | ok (v : α)
  | raise (busy : Bool)
  deriving DecidableEq, Repr

/-- Observable behaviour of one run of `com_retry`: the overall result,
the number of calls made to the wrapped function, and the sequence of
sleeps performed (in order). -/
inductive RetryResult (α : Type) where
  | ok (v : α)
  | raised (busy : Bool)
  | noAttempt
  deriving DecidableEq, Repr

structure RetryTrace (α : Type) where
  result : RetryResult α
  calls : Nat
  sleeps : List ℚ
  deriving DecidableEq, Repr

/-- Loop of `com_retry`: `remaining` mirrors the `for _ in range(retries)`
iterations left, `k` counts calls already made, `d` is the current delay.
On exhaustion the source re-raises the last exception, which is
necessarily a busy one (a non-busy exception is re-raised immediately);
with zero iterations the source returns `None` (`.noAttempt`). -/
def com_retry_go {α : Type} (fn : Nat → CallOutcome α) : Nat → Nat → ℚ → RetryTrace α
  | 0, k, _ =>
      { result := if k = 0 then RetryResult.noAttempt else RetryResult.raised true
        calls := k, sleeps := [] }
  | remaining + 1, k, d =>
      match fn k with
      | CallOutcome.ok v => { result := RetryResult.ok v, calls := k + 1, sleeps := [] }
      | CallOutcome.raise true =>
          let t := com_retry_go fn remaining (k + 1) (min (4/5 : ℚ) (d * (8/5)))
          { result := t.result, calls := t.calls, sleeps := d :: t.sleeps }
      | CallOutcome.raise false =>
          { result := RetryResult.raised false, calls := k + 1, sleeps := [] }

/-- Embedding of `com_retry` with its default parameters
`retries=15, base_delay=0.05, max_delay=0.8`. -/
def com_retry {α : Type} (fn : Nat → CallOutcome α) : RetryTrace α :=
  com_retry_go fn 15 0 (1/20)

/-- The exact backoff delay schedule of the source: start at 0.05 s, each
subsequent delay is `min(0.8, previous * 1.6)`. -/
def com_delay : Nat → ℚ
  | 0 => 1/20
  | n + 1 => min (4/5) (com_delay n * (8/5))

/-! ## output_log.OutputStream and OutputStreamManager

Embedding of output_log.py.  A stream's ring buffer stores text chunks;
no claim inspects chunk contents, so a chunk is modelled by the number of
bytes read (the decode with `errors="replace"` never raises, and yields
non-empty text exactly when the byte chunk is non-empty).  A log file is
modelled by its existence and byte size, which is all `read_new` inspects
besides the raw bytes themselves.  `cursor` and `max_bytes` are taken
non-negative (`Nat`), the "valid cursor" domain of the claims. -/

inductive StreamMode where
  | logfile
  | lastprompt
  deriving DecidableEq, Repr

/-- Mirror of the Python dataclass `OutputStream`. -/
structure OutputStream where
  stream_id : String
  mode : StreamMode
  logfile_path : Option String
  cursor : Nat
  ring : List Nat
  started_by_server : Bool
  deriving DecidableEq, Repr

/-- State of the file at a given path at the moment of a read. -/
structure FileSt where
  present : Bool
  size : Nat
  deriving DecidableEq, Repr

/-- Result triple of `read_new`: `(text, new_cursor, truncated)`, with the
returned text abstracted to the number of bytes read (the text is empty
iff `text_len = 0`). -/
structure ReadNewRes where
  text_len : Nat
  new_cursor : Nat
  truncated : Bool
  deriving DecidableEq, Repr

/-- Python `deque(maxlen=ring_max_chunks)` append: oldest evicted beyond
the capacity (ring_max_chunks defaults to 200). -/
def ringAppend (capacity : Nat) (r : List Nat) (x : Nat) : List Nat :=
  let r2 := r ++ [x]
  if capacity < r2.length then r2.drop (r2.length - capacity) else r2

/-- Mirror of the manager's `_streams` dict (insertion-ordered, as Python
dicts are) plus `_default_stream_id`. -/
structure OutputStreamManager where
  streams : List (String × OutputStream)
  default_stream_id : Option String
  deriving DecidableEq, Repr

/-- Python dict assignment `d[k] = v`: replaces in place if the key is
present (keeping its position), otherwise appends. -/
def omInsert : List (String × OutputStream) → String → OutputStream → List (String × OutputStream)
  | [], k, v => [(k, v)]
  | (k', v') :: t, k, v =>
      if k' = k then (k, v) :: t else (k', v') :: omInsert t k v

/-- Python `self._streams.get(stream_id)`. -/
def omGet (m : OutputStreamManager) (stream_id : String) : Option OutputStream :=
  (m.streams.find? (fun kv => kv.1 = stream_id)).map (fun kv => kv.2)

/-- Mirror of `OutputStreamManager.get_default`. -/
def get_default (m : OutputStreamManager) : Option OutputStream :=
  match m.default_stream_id with
  | none => none
  | some sid => omGet m sid

/-- Mirror of `OutputStreamManager.start_logfile_stream`: fresh empty
ring, stream stored under its id, made the default. -/
def start_logfile_stream (m : OutputStreamManager) (stream_id : String)
    (logfile_path : String) (cursor : Nat) (started_by_server : Bool) :
    OutputStreamManager :=
  let s : OutputStream :=
    { stream_id := stream_id, mode := StreamMode.logfile
      logfile_path := some logfile_path, cursor := cursor, ring := []
      started_by_server := started_by_server }
  { streams := omInsert m.streams stream_id s, default_stream_id := some stream_id }

/-- Mirror of `OutputStreamManager.start_lastprompt_stream`. -/
def start_lastprompt_stream (m : OutputStreamManager) (stream_id : String) :
    OutputStreamManager :=
  let s : OutputStream :=
    { stream_id := stream_id, mode := StreamMode.lastprompt
      logfile_path := none, cursor := 0, ring := []
      started_by_server := false }
  { streams := omInsert m.streams stream_id s, default_stream_id := some stream_id }

/-- Mirror of `OutputStreamManager.stop`: `del` the entry; if it was the
default, the new default is `next(iter(self._streams), None)`, i.e. the
first remaining key in insertion order. -/
def om_stop (m : OutputStreamManager) (stream_id : String) :
    OutputStreamManager × Bool :=
  if (m.streams.find? (fun kv => kv.1 = stream_id)).isSome then
    let streams2 := m.streams.filter (fun kv => ¬ kv.1 = stream_id)
    let default2 :=
      if m.default_stream_id = some stream_id then
        (streams2.head?).map (fun kv => kv.1)
      else m.default_stream_id
    ({ streams := streams2, default_stream_id := default2 }, true)
  else (m, false)

/-- Mirror of `OutputStreamManager.read_new` (output_log.py lines 75-108).
`fileOf` gives the state of the file at a path at the moment of the call.
The stored cursor and the ring are updated only when the decoded text is
non-empty, i.e. exactly when at least one byte was read. -/
def read_new (m : OutputStreamManager) (fileOf : String → FileSt)
    (stream_id : String) (cursor : Nat) (max_bytes : Nat) :
    ReadNewRes × OutputStreamManager :=
  match omGet m stream_id with
  | none => ({ text_len := 0, new_cursor := cursor, truncated := false }, m)
  | some s =>
      if s.mode = StreamMode.logfile then
        match s.logfile_path with
        | none => ({ text_len := 0, new_cursor := cursor, truncated := false }, m)
        | some path =>
            let f := fileOf path
            if f.present = false then
              ({ text_len := 0, new_cursor := cursor, truncated := false }, m)
            else
              let c := min cursor f.size
              let to_read := min max_bytes (f.size - c)
              if to_read = 0 then
                ({ text_len := 0, new_cursor := c, truncated := false }, m)
              else
                let new_cursor := c + to_read
                let truncated := decide (new_cursor < f.size) && decide (to_read = max_bytes)
                let s2 : OutputStream :=
                  { s with cursor := new_cursor, ring := ringAppend 200 s.ring to_read }
                ({ text_len := to_read, new_cursor := new_cursor, truncated := truncated },
                 { m with streams := omInsert m.streams stream_id s2 })
      else ({ text_len := 0, new_cursor := cursor, truncated := false }, m)

/-! ## server.stop_logging

Embedding of the `stop_logging` tool (server.py lines 890-915).  The tool
looks the stream up, removes it, and then decides whether to disable the
endpoint's LOGFILEMODE feature: it does so when the removal succeeded, the
removed stream was a logfile stream started by the server, and the
manager's default stream *after the removal* is not a logfile stream.
The actual `set_variable("LOGFILEMODE", 0)` (with its LISP fallback) is
modelled by the returned `disabled` flag, the decision being the content
of the claim. -/

/-- Returns `(manager after the stop, stopped, logging feature disabled)`. -/
def stop_logging (m : OutputStreamManager) (stream_id : String) :
    OutputStreamManager × Bool × Bool :=
  let m2 := (om_stop m stream_id).1
  let stopped := (om_stop m stream_id).2
  let disabled :=
    match omGet m stream_id with
    | none => false
    | some s0 =>
        if stopped = true ∧ s0.mode = StreamMode.logfile ∧ s0.started_by_server = true then
          let remaining_logfile : Bool :=
            match get_default m2 with
            | some d => decide (d.mode = StreamMode.logfile)
            | none => false
          ! remaining_logfile
        else false
  (m2, stopped, disabled)

/-! ## server.selection, phase transition

Embedding of the decision made by the `selection` tool between its two
phases (server.py lines 1202-1223).  After the implied-selection phase
produced `out1` the code either returns it, raises a busy error, or
dispatches the interactive prompt:

  - return `out1` when `not out1["timed_out"] and int(out1["count"] or 0) > 0`;
  - otherwise read CMDACTIVE (`int(get_variable("CMDACTIVE") or 0)`, any
    exception and a falsy value both yielding 0) and raise when it is
    non-zero, else dispatch the prompt.

`cmdactiveRead = none` models both a raised read and a falsy value. -/

inductive SelPhase2 where
  | returnImplied
  | raiseBusy
  | promptUser
  deriving DecidableEq, Repr

def selection_phase2 (timed_out : Bool) (count : Int) (cmdactiveRead : Option Int) :
    SelPhase2 :=
  if timed_out = false ∧ 0 < count then SelPhase2.returnImplied
  else
    let cmdactive := cmdactiveRead.getD 0
    if cmdactive ≠ 0 then SelPhase2.raiseBusy else SelPhase2.promptUser

/-! ## server dictionary tools

Embedding of the step structure of the five dictionary tools (server.py
lines 1063-1144).  Every tool first calls `_ensure_connected()` — which
calls `bridge.ensure_connection()`, itself a sequence of COM calls into
the endpoint (a liveness probe on `doc.Name`, possibly a full `connect`) —
and only then validates its required string arguments, raising
`ValueError` on an empty one; only after validation does it build and
dispatch the LISP script through `_run_lisp_json` (further endpoint
calls).  The trace records the endpoint interactions in order; the script
text itself is irrelevant to the claim and is not recorded. -/

inductive SrvCall where
  | ensureConn
  | sendToEndpoint
  deriving DecidableEq, Repr

inductive SrvOutcome where
  | connectError
  | validationError (msg : String)
  | dispatched
  deriving DecidableEq, Repr

structure OpTrace where
  calls : List SrvCall
  outcome : SrvOutcome
  deriving DecidableEq, Repr

/-- Mirror of `dict_keys` (server.py lines 1063-1072). -/
def dict_keys_tool (conn_ok : Bool) (dict_name : String) : OpTrace :=
  if conn_ok = false then { calls := [SrvCall.ensureConn], outcome := SrvOutcome.connectError }
  else if dict_name = "" then
    { calls := [SrvCall.ensureConn]
      outcome := SrvOutcome.validationError "dict_name must be non-empty" }
  else { calls := [SrvCall.ensureConn, SrvCall.sendToEndpoint], outcome := SrvOutcome.dispatched }

/-- Mirror of `dict_xrecord_get` (server.py lines 1075-1089). -/
def dict_xrecord_get_tool (conn_ok : Bool) (dict_name : String) (key : String) : OpTrace :=
  if conn_ok = false then { calls := [SrvCall.ensureConn], outcome := SrvOutcome.connectError }
  else if dict_name = "" then
    { calls := [SrvCall.ensureConn]
      outcome := SrvOutcome.validationError "dict_name must be non-empty" }
  else if key = "" then
    { calls := [SrvCall.ensureConn]
      outcome := SrvOutcome.validationError "key must be non-empty" }
  else { calls := [SrvCall.ensureConn, SrvCall.sendToEndpoint], outcome := SrvOutcome.dispatched }

/-- Mirror of `dict_xrecord_set` (server.py lines 1092-1114).  The
`values` argument is validated by `_lisp_typed_values` after the string
checks; `values_ok` abstracts whether that conversion succeeds. -/
def dict_xrecord_set_tool (conn_ok : Bool) (dict_name : String) (key : String)
    (values_ok : Bool) : OpTrace :=
  if conn_ok = false then { calls := [SrvCall.ensureConn], outcome := SrvOutcome.connectError }
  else if dict_name = "" then
    { calls := [SrvCall.ensureConn]
      outcome := SrvOutcome.validationError "dict_name must be non-empty" }
  else if key = "" then
    { calls := [SrvCall.ensureConn]
      outcome := SrvOutcome.validationError "key must be non-empty" }
  else if values_ok = false then
    { calls := [SrvCall.ensureConn]
      outcome := SrvOutcome.validationError "values must be a list" }
  else { calls := [SrvCall.ensureConn, SrvCall.sendToEndpoint], outcome := SrvOutcome.dispatched }

/-- Mirror of `dict_xrecord_delete` (server.py lines 1117-1131). -/
def dict_xrecord_delete_tool (conn_ok : Bool) (dict_name : String) (key : String) : OpTrace :=
  if conn_ok = false then { calls := [SrvCall.ensureConn], outcome := SrvOutcome.connectError }
  else if dict_name = "" then
    { calls := [SrvCall.ensureConn]
      outcome := SrvOutcome.validationError "dict_name must be non-empty" }
  else if key = "" then
    { calls := [SrvCall.ensureConn]
      outcome := SrvOutcome.validationError "key must be non-empty" }
  else { calls := [SrvCall.ensureConn, SrvCall.sendToEndpoint], outcome := SrvOutcome.dispatched }

/-- Mirror of `dict_delete` (server.py lines 1134-1144). -/
def dict_delete_tool (conn_ok : Bool) (dict_name : String) : OpTrace :=
  if conn_ok = false then { calls := [SrvCall.ensureConn], outcome := SrvOutcome.connectError }
  else if dict_name = "" then
    { calls := [SrvCall.ensureConn]
      outcome := SrvOutcome.validationError "dict_name must be non-empty" }
  else { calls := [SrvCall.ensureConn, SrvCall.sendToEndpoint], outcome := SrvOutcome.dispatched }

/-! ## server._extract_mcp_json, the single-shot marker extractor

Embedding of `_extract_mcp_json` (server.py lines 48-75) together with
the Python string primitives it uses (`str.splitlines`, substring search,
`str.rfind`, `str.strip`) and a JSON parser modelling `json.loads`.

Strings are processed as `List Char`.  The modelled `str.strip` and
`str.splitlines` cover the ASCII whitespace and line-boundary characters
(all inputs of interest are ASCII); `json.loads` is modelled by a
recursive-descent parser of the JSON grammar that the Python decoder
accepts (including its NaN/Infinity extensions), with numbers kept as
lexemes since no claim inspects numeric values. -/

/-- Line-boundary characters of `str.splitlines` (ASCII plus the
common Unicode ones: NEL, LINE SEPARATOR, PARAGRAPH SEPARATOR). -/
def isLineBreak (c : Char) : Bool :=
  c = '\n' || c = '\r' ||
    [11, 12, 28, 29, 30, 133, 8232, 8233].contains c.toNat

def pySplitlinesGo : List Char → List Char → List (List Char)
  | [], acc => if acc.isEmpty then [] else [acc.reverse]
  | '\r' :: '\n' :: rest, acc => acc.reverse :: pySplitlinesGo rest []
  | c :: rest, acc =>
      if isLineBreak c then acc.reverse :: pySplitlinesGo rest []
      else pySplitlinesGo rest (c :: acc)

/-- Mirror of Python `str.splitlines()` (no trailing empty line). -/
def pySplitlines (s : List Char) : List (List Char) :=
  pySplitlinesGo s []

/-- Whitespace stripped by Python `str.strip()` (ASCII part). -/
def pyIsSpace (c : Char) : Bool :=
  c = ' ' || c = '\t' || c = '\n' || c = '\r' || c.toNat = 11 || c.toNat = 12

/-- Mirror of Python `str.strip()`. -/
def pyStrip (l : List Char) : List Char :=
  ((l.dropWhile pyIsSpace).reverse.dropWhile pyIsSpace).reverse

def startsWithL : List Char → List Char → Bool
  | _, [] => true
  | [], _ :: _ => false
  | c :: t, p :: pt => c = p && startsWithL t pt

/-- Indices `i` (ascending) at which `pat` occurs in the list. -/
def subIndicesGo (pat : List Char) : List Char → Nat → List Nat
  | [], i => if startsWithL [] pat then [i] else []
  | c :: t, i =>
      (if startsWithL (c :: t) pat then [i] else []) ++ subIndicesGo pat t (i + 1)

/-- Python `pat in s` (for non-empty `pat`). -/
def containsSub (l pat : List Char) : Bool :=
  ! (subIndicesGo pat l 0).isEmpty

/-- The reserved in-line tag `_MCP_JSON_MARKER = "[MCP:JSON]"`. -/
def MCP_JSON_MARKER : List Char := "[MCP:JSON]".data

/-- Python `line[line.rfind(marker) + len(marker):]`: the substring after
the last occurrence of the marker, `none` when the marker is absent. -/
def afterLastMarker (line : List Char) : Option (List Char) :=
  (subIndicesGo MCP_JSON_MARKER line 0).getLast?.map
    (fun i => line.drop (i + MCP_JSON_MARKER.length))

/-- JSON values as decoded by `json.loads`; an object decodes to a Python
dict, which is what `isinstance(obj, dict)` tests.  Numbers are kept as
their lexemes. -/
inductive Jv where
  | jnull
  | jbool (b : Bool)
  | jnum (lex : String)
  | jstr (s : String)
  | jarr (elems : List Jv)
  | jobj (fields : List (String × Jv))

/-- JSON inter-token whitespace accepted by `json.loads`. -/
def jsonWs (c : Char) : Bool :=
  c = ' ' || c = '\t' || c = '\n' || c = '\r'

def skipWs (l : List Char) : List Char :=
  l.dropWhile jsonWs

def isHexDigitL (c : Char) : Bool :=
  (48 ≤ c.toNat && c.toNat ≤ 57) || (97 ≤ c.toNat && c.toNat ≤ 102) ||
    (65 ≤ c.toNat && c.toNat ≤ 70)

def hexVal (c : Char) : Nat :=
  if 48 ≤ c.toNat && c.toNat ≤ 57 then c.toNat - 48
  else if 97 ≤ c.toNat && c.toNat ≤ 102 then c.toNat - 87
  else if 65 ≤ c.toNat && c.toNat ≤ 70 then c.toNat - 55
  else 0

/-- Body of a JSON string after the opening quote: returns the decoded
content and the rest after the closing quote.  Strict mode of
`json.loads`: unescaped control characters and invalid escapes fail. -/
def parseStringBody : List Char → Option (List Char × List Char)
  | [] => none
  | '"' :: rest => some ([], rest)
  | '\\' :: 'u' :: h1 :: h2 :: h3 :: h4 :: rest =>
      if isHexDigitL h1 && isHexDigitL h2 && isHexDigitL h3 && isHexDigitL h4 then
        match parseStringBody rest with
        | some (content, r2) =>
            some (Char.ofNat (((hexVal h1 * 16 + hexVal h2) * 16 + hexVal h3) * 16 + hexVal h4)
                    :: content, r2)
        | none => none
      else none
  | '\\' :: e :: rest =>
      let dec : Option Char :=
        if e = '"' then some '"'
        else if e = '\\' then some '\\'
        else if e = '/' then some '/'
        else if e = 'b' then some (Char.ofNat 8)
        else if e = 'f' then some (Char.ofNat 12)
        else if e = 'n' then some '\n'
        else if e = 'r' then some '\r'
        else if e = 't' then some '\t'
        else none
      match dec with
      | some c =>
          match parseStringBody rest with
          | some (content, r2) => some (c :: content, r2)
          | none => none
      | none => none
  | c :: rest =>
      if c.toNat < 32 then none
      else
        match parseStringBody rest with
        | some (content, r2) => some (c :: content, r2)
        | none => none

def isDigitL (c : Char) : Bool :=
  48 ≤ c.toNat && c.toNat ≤ 57

/-- Number lexeme per the JSON grammar: `-? (0 | [1-9][0-9]*)
('.' [0-9]+)? ([eE] [+-]? [0-9]+)?`. -/
def parseNumLex (l : List Char) : Option (List Char × List Char) :=
  let (sign, l1) :=
    match l with
    | '-' :: t => (['-'], t)
    | _ => (([] : List Char), l)
  let (ip, l2) := l1.span isDigitL
  let intOk : Bool :=
    match ip with
    | [] => false
    | [_] => true
    | c :: _ :: _ => ¬ (c = '0')
  if intOk = false then none
  else
    let (fp, l3) :=
      match l2 with
      | '.' :: t =>
          let (ds, r) := t.span isDigitL
          if ds.isEmpty then (none, l2) else (some ('.' :: ds), r)
      | _ => (none, l2)
    match fp with
    | none =>
        if (match l2 with | '.' :: _ => true | _ => false) then none
        else
          let (ep, l4) := expPart l2
          match ep with
          | none => some (sign ++ ip, l2)
          | some es => some (sign ++ ip ++ es, l4)
    | some fs =>
        let (ep, l4) := expPart l3
        match ep with
        | none => some (sign ++ ip ++ fs, l3)
        | some es => some (sign ++ ip ++ fs ++ es, l4)
where
  expPart (l : List Char) : Option (List Char) × List Char :=
    match l with
    | c :: t =>
        if c = 'e' || c = 'E' then
          let (sg, t2) :=
            match t with
            | '+' :: u => (['+'], u)
            | '-' :: u => (['-'], u)
            | _ => (([] : List Char), t)
          let (ds, r) := t2.span isDigitL
          if ds.isEmpty then (none, l) else (some (c :: (sg ++ ds)), r)
        else (none, l)
    | [] => (none, l)

mutual

/-- Mirror of the `json.loads` value grammar (with the CPython
NaN/Infinity extensions), fuel-indexed. -/
def parseJv : Nat → List Char → Option (Jv × List Char)
  | 0, _ => none
  | fuel + 1, l0 =>
      let l := skipWs l0
      match l with
      | '{' :: rest =>
          let r1 := skipWs rest
          (match r1 with
           | '}' :: r2 => some (Jv.jobj [], r2)
           | _ =>
              match parseJvFields fuel r1 with
              | some (fields, r2) => some (Jv.jobj fields, r2)
              | none => none)
      | '[' :: rest =>
          let r1 := skipWs rest
          (match r1 with
           | ']' :: r2 => some (Jv.jarr [], r2)
           | _ =>
              match parseJvItems fuel r1 with
              | some (elems, r2) => some (Jv.jarr elems, r2)
              | none => none)
      | '"' :: rest =>
          (match parseStringBody rest with
           | some (content, r2) => some (Jv.jstr (String.mk content), r2)
           | none => none)
      | 't' :: _ =>
          if startsWithL l "true".data then some (Jv.jbool true, l.drop 4) else none
      | 'f' :: _ =>
          if startsWithL l "false".data then some (Jv.jbool false, l.drop 5) else none
      | 'n' :: _ =>
          if startsWithL l "null".data then some (Jv.jnull, l.drop 4) else none
      | 'N' :: _ =>
          if startsWithL l "NaN".data then some (Jv.jnum "NaN", l.drop 3) else none
      | 'I' :: _ =>
          if startsWithL l "Infinity".data then some (Jv.jnum "Infinity", l.drop 8) else none
      | '-' :: 'I' :: _ =>
          if startsWithL l "-Infinity".data then some (Jv.jnum "-Infinity", l.drop 9) else none
      | _ =>
          (match parseNumLex l with
           | some (lex, rest) => some (Jv.jnum (String.mk lex), rest)
           | none => none)

/-- Non-empty bracketed item list: `value (',' value)* ']'`. -/
def parseJvItems : Nat → List Char → Option (List Jv × List Char)
  | 0, _ => none
  | fuel + 1, l =>
      match parseJv fuel l with
      | none => none
      | some (v, rest) =>
          let r1 := skipWs rest
          match r1 with
          | ',' :: r2 =>
              (match parseJvItems fuel r2 with
               | some (vs, r3) => some (v :: vs, r3)
               | none => none)
          | ']' :: r2 => some ([v], r2)
          | _ => none

/-- Non-empty field list: `string ':' value (',' string ':' value)* '}'`. -/
def parseJvFields : Nat → List Char → Option (List (String × Jv) × List Char)
  | 0, _ => none
  | fuel + 1, l =>
      match skipWs l with
      | '"' :: rest =>
          (match parseStringBody rest with
           | none => none
           | some (key, r1) =>
              match skipWs r1 with
              | ':' :: r2 =>
                  (match parseJv fuel r2 with
                   | none => none
                   | some (v, r3) =>
                      let r4 := skipWs r3
                      match r4 with
                      | ',' :: r5 =>
                          (match parseJvFields fuel r5 with
                           | some (fields, r6) => some ((String.mk key, v) :: fields, r6)
                           | none => none)
                      | '}' :: r5 => some ([(String.mk key, v)], r5)
                      | _ => none)
              | _ => none)
      | _ => none

end

/-- Mirror of `json.loads`: parse one value, allow trailing whitespace
only.  Fuel `2 * length + 2` is sufficient for every input: each unit of
fuel spent is matched by at least half a consumed character. -/
def json_loads (s : String) : Option Jv :=
  match parseJv (2 * s.length + 2) s.data with
  | some (v, rest) => if (skipWs rest).isEmpty then some v else none
  | none => none

/-- Distinct failure modes of `_extract_mcp_json`, in the order the
source raises them. -/
inductive ExtractErr where
  | noOutput
  | markerNotFound
  | emptyPayload
  | malformed
  | notAnObject
  deriving DecidableEq, Repr

/-- The `last_line` loop of the source: the last line containing the
marker, if any. -/
def lastTaggedLine (lines : List (List Char)) : Option (List Char) :=
  (lines.filter (fun l => containsSub l MCP_JSON_MARKER)).getLast?

/-- Classification of the selected line: payload after the last marker
occurrence, stripped; empty payload, `json.loads` failure and non-object
results are distinct errors. -/
def payloadClassify (line : List Char) : Except ExtractErr Jv :=
  match afterLastMarker line with
  | none => Except.error ExtractErr.markerNotFound
  | some raw =>
      let payload := pyStrip raw
      if payload.isEmpty then Except.error ExtractErr.emptyPayload
      else
        match json_loads (String.mk payload) with
        | none => Except.error ExtractErr.malformed
        | some (Jv.jobj fields) => Except.ok (Jv.jobj fields)
        | some _ => Except.error ExtractErr.notAnObject

/-- Embedding of `_extract_mcp_json` (server.py lines 48-75). -/
def extract_mcp_json (text : String) : Except ExtractErr Jv :=
  if text = "" then Except.error ExtractErr.noOutput
  else
    match lastTaggedLine (pySplitlines text.data) with
    | none => Except.error ExtractErr.markerNotFound
    | some line => payloadClassify line

/-! ## autocad_bridge.AutoCADBridge.connect

Embedding of the action sequence performed by `connect` (autocad_bridge.py
lines 218-343), at the granularity of the claim: which COM activation
calls are made, against which ProgID, and in which order.

  - Phase 1: for each candidate ProgID, `win32com.client.GetActiveObject`
    (attach to a running instance) inside `com_retry`; the first success
    returns.  Version-mismatch and any exception both continue to the
    next candidate, so the per-candidate outcome is a single Bool.
  - Phase 2 (only when `attach_or_launch` and `target_major is not None
    or AUTOCAD_MCP_USE_DISPATCH` is set): for each candidate containing a
    dot, `win32com.client.Dispatch(progid)` — an ambient by-name
    activation that may attach to a running instance or create a new one.
    (The `"." not in progid` skip is vacuous for the generated ProgIDs:
    even the unversioned "AutoCAD.Application" contains a dot.)  Any
    non-success — exception, disallowed freshly-spawned instance (which
    is `Quit`), version mismatch — continues, so the outcome is a Bool.
  - Phase 3 (only when `attach_or_launch` and AUTOCAD_MCP_ACAD_EXE names
    an existing file): `subprocess.Popen` of the explicit executable path,
    then a timed wait loop re-running the attach sweep; `att2 r p` gives
    the outcome of attaching `p` in round `r` of that loop. -/

inductive ConnAction where
  | attach (progid : String)
  | dispatch (progid : String)
  | launchExe
  deriving DecidableEq, Repr

/-- Mirror of the versioned range of `_get_acad_progids`:
`for v in range(30, 18, -1)`. -/
def versionedProgids : List String :=
  ((List.range' 19 12).reverse).map (fun v => "AutoCAD.Application." ++ toString v)

/-- The `if p not in progids: progids.append(p)` step. -/
def addIfAbsent (xs : List String) (p : String) : List String :=
  if p ∈ xs then xs else xs ++ [p]

/-- Mirror of `AutoCADBridge._get_acad_progids`: pinned version first,
then versioned newest-to-oldest, then the optional registry-resolved
CurVer alias (only present when AUTOCAD_MCP_PREFER_CURVER is set and the
registry lookup yields a non-empty string), and the unversioned ProgID
last (appended unconditionally). -/
def get_acad_progids (target_major : Option Nat) (curver_progid : Option String) :
    List String :=
  let l0 : List String :=
    match target_major with
    | some m => ["AutoCAD.Application." ++ toString m]
    | none => []
  let l1 := versionedProgids.foldl addIfAbsent l0
  let l2 :=
    match curver_progid with
    | some v => addIfAbsent l1 v
    | none => l1
  l2 ++ ["AutoCAD.Application"]

/-- Phase-1 attach sweep: actions performed and whether one succeeded
(the sweep stops at the first success). -/
def attachSweep (attachOk : String → Bool) : List String → List ConnAction × Bool
  | [] => ([], false)
  | p :: rest =>
      if attachOk p then ([ConnAction.attach p], true)
      else (ConnAction.attach p :: (attachSweep attachOk rest).1,
            (attachSweep attachOk rest).2)

/-- Python `"." in progid`. -/
def hasDot (p : String) : Bool :=
  p.data.contains '.'

/-- Phase-2 Dispatch sweep: candidates without a dot are skipped (no COM
call made); the sweep stops at the first success. -/
def dispatchSweep (dispatchOk : String → Bool) : List String → List ConnAction × Bool
  | [] => ([], false)
  | p :: rest =>
      if hasDot p = false then dispatchSweep dispatchOk rest
      else if dispatchOk p then ([ConnAction.dispatch p], true)
      else (ConnAction.dispatch p :: (dispatchSweep dispatchOk rest).1,
            (dispatchSweep dispatchOk rest).2)

/-- Phase-3 wait loop after the explicit-path launch: up to `rounds`
attach sweeps (the `while time.time() - t0 < wait_sec` loop), round `r`
using the attach outcomes `att2 r`. -/
def launchWaitLoop (att2 : Nat → String → Bool) (ps : List String) :
    Nat → Nat → List ConnAction × Bool
  | _, 0 => ([], false)
  | r, n + 1 =>
      if (attachSweep (att2 r) ps).2 then ((attachSweep (att2 r) ps).1, true)
      else ((attachSweep (att2 r) ps).1 ++ (launchWaitLoop att2 ps (r + 1) n).1,
            (launchWaitLoop att2 ps (r + 1) n).2)

/-- Environment-derived configuration of one `connect` call. -/
structure ConnectEnv where
  target_major : Option Nat
  curver_progid : Option String
  use_dispatch_env : Bool
  acad_exe_present : Bool
  launch_rounds : Nat

/-- Phase 2 of `connect` as a unit: the Dispatch sweep, guarded by
`attach_or_launch` and `use_dispatch = target_major is not None or
AUTOCAD_MCP_USE_DISPATCH`. -/
def connectDispatchPart (attach_or_launch : Bool) (env : ConnectEnv)
    (dispatchOk : String → Bool) (ps : List String) : List ConnAction × Bool :=
  if attach_or_launch && (env.target_major.isSome || env.use_dispatch_env) then
    dispatchSweep dispatchOk ps
  else (([] : List ConnAction), false)

/-- Phase 3 of `connect` as a unit: the explicit-executable-path launch
followed by the timed re-attach loop, guarded by `attach_or_launch` and a
configured existing executable path. -/
def connectLaunchPart (attach_or_launch : Bool) (env : ConnectEnv)
    (att2 : Nat → String → Bool) (ps : List String) : List ConnAction × Bool :=
  if attach_or_launch && env.acad_exe_present then
    (ConnAction.launchExe :: (launchWaitLoop att2 ps 0 env.launch_rounds).1,
     (launchWaitLoop att2 ps 0 env.launch_rounds).2)
  else (([] : List ConnAction), false)

/-- Embedding of `AutoCADBridge.connect`: the ordered list of COM
activation / process-launch actions, and the returned Bool. -/
def connect (attach_or_launch : Bool) (env : ConnectEnv)
    (attachOk : String → Bool) (dispatchOk : String → Bool)
    (att2 : Nat → String → Bool) : List ConnAction × Bool :=
  let ps := get_acad_progids env.target_major env.curver_progid
  if (attachSweep attachOk ps).2 then ((attachSweep attachOk ps).1, true)
  else if (connectDispatchPart attach_or_launch env dispatchOk ps).2 then
    ((attachSweep attachOk ps).1 ++ (connectDispatchPart attach_or_launch env dispatchOk ps).1,
     true)
  else
    ((attachSweep attachOk ps).1 ++ (connectDispatchPart attach_or_launch env dispatchOk ps).1 ++
       (connectLaunchPart attach_or_launch env att2 ps).1,
     (connectLaunchPart attach_or_launch env att2 ps).2)

/-! ## Theorems -/

/-- Invariant of the `wait_for_idle` polling loop, proved along the fuel
recursion.  `deadline ≤ k + fuel` guarantees the fuel never runs out
before the timeout branch fires. -/
lemma wait_for_idle_go_spec (obs : Nat → PollObs) (deadline : Nat) :
    ∀ fuel k, deadline ≤ k + fuel →
    k ≤ (wait_for_idle_go obs deadline fuel k).2 ∧
    ((wait_for_idle_go obs deadline fuel k).1.completed = true →
      pollQuiescent (obs (wait_for_idle_go obs deadline fuel k).2) = true ∧
      pollCmdactive (obs (wait_for_idle_go obs deadline fuel k).2) = 0) ∧
    ((wait_for_idle_go obs deadline fuel k).1.completed = false →
      deadline ≤ (wait_for_idle_go obs deadline fuel k).2 ∧
      (wait_for_idle_go obs deadline fuel k).1.needs_input =
        decide (pollCmdactive (obs (wait_for_idle_go obs deadline fuel k).2) ≠ 0) ∧
      (wait_for_idle_go obs deadline fuel k).1.quiescent =
        pollQuiescent (obs (wait_for_idle_go obs deadline fuel k).2)) ∧
    (∀ j, k ≤ j → j ≤ (wait_for_idle_go obs deadline fuel k).2 →
      (wait_for_idle_go obs deadline fuel k).1.completed = false →
      ¬(pollQuiescent (obs j) = true ∧ pollCmdactive (obs j) = 0)) := by
  intro fuel
  induction fuel with
  | zero =>
      intro k hk
      simp only [wait_for_idle_go]
      by_cases hidle : pollQuiescent (obs k) = true ∧ pollCmdactive (obs k) = 0
      · simp [hidle]
      · simp only [if_neg hidle]
        refine ⟨le_refl k, by simp, ?_, ?_⟩
        · intro _
          exact ⟨by omega, trivial, trivial⟩
        · intro j h1 h2 _
          have : j = k := le_antisymm h2 h1
          simpa [this] using hidle
  | succ fuel ih =>
      intro k hk
      simp only [wait_for_idle_go]
      by_cases hidle : pollQuiescent (obs k) = true ∧ pollCmdactive (obs k) = 0
      · simp [hidle]
      · simp only [if_neg hidle]
        by_cases hdl : deadline ≤ k
        · simp only [if_pos hdl]
          refine ⟨le_refl k, by simp, ?_, ?_⟩
          · intro _
            exact ⟨hdl, trivial, trivial⟩
          · intro j h1 h2 _
            have : j = k := le_antisymm h2 h1
            simpa [this] using hidle
        · simp only [if_neg hdl]
          have hk2 : deadline ≤ (k + 1) + fuel := by omega
          obtain ⟨g1, g2, g3, g4⟩ := ih (k + 1) hk2
          refine ⟨by omega, g2, g3, ?_⟩
          intro j h1 h2 hc
          rcases Nat.eq_or_lt_of_le h1 with h | h
          · simpa [← h] using hidle
          · exact g4 j (by omega) h2 hc

/-- Claim C6: `wait_for_idle` declares completion only at a poll on which
the quiescent flag is true and the CMDACTIVE counter is zero; on timeout
the result has `completed = false`, `needs_input` exactly when the counter
was non-zero on the final poll, and no earlier poll satisfied the idle
condition. -/
theorem C6_wait_for_idle (obs : Nat → PollObs) (deadline : Nat) :
    ((wait_for_idle obs deadline).1.completed = true →
      pollQuiescent (obs (wait_for_idle obs deadline).2) = true ∧
      pollCmdactive (obs (wait_for_idle obs deadline).2) = 0) ∧
    ((wait_for_idle obs deadline).1.completed = false →
      deadline ≤ (wait_for_idle obs deadline).2 ∧
      (wait_for_idle obs deadline).1.needs_input =
        decide (pollCmdactive (obs (wait_for_idle obs deadline).2) ≠ 0) ∧
      ∀ j ≤ (wait_for_idle obs deadline).2,
        ¬(pollQuiescent (obs j) = true ∧ pollCmdactive (obs j) = 0)) := by
  obtain ⟨g1, g2, g3, g4⟩ :=
    wait_for_idle_go_spec obs deadline (deadline + 1) 0 (by omega)
  refine ⟨g2, ?_⟩
  intro hc
  obtain ⟨h1, h2, _⟩ := g3 hc
  exact ⟨h1, h2, fun j hj => g4 j (Nat.zero_le j) hj hc⟩

/-- Poll schedule for the C6 witness: busy for two polls, then idle. -/
def obsC6 : Nat → PollObs := fun j =>
  if j < 2 then { isQuiescentRead := some false, cmdactiveRead := some 1 }
  else { isQuiescentRead := some true, cmdactiveRead := some 0 }

/-- Witness for C6 at a concrete schedule: the loop completes, and the
theorem yields the idle condition at the final poll. -/
theorem C6_wait_for_idle_witness :
    pollQuiescent (obsC6 (wait_for_idle obsC6 5).2) = true ∧
    pollCmdactive (obsC6 (wait_for_idle obsC6 5).2) = 0 :=
  (C6_wait_for_idle obsC6 5).1 (by decide)

/-- Claim C10: a poll on which reading CMDACTIVE raised is treated as the
sentinel 999; completion is never declared on such a poll, and if it is
the final poll of a timed-out wait then `needs_input = true`. -/
theorem C10_wait_for_idle_sentinel (obs : Nat → PollObs) (deadline : Nat) :
    (∀ qb, pollCmdactive { isQuiescentRead := qb, cmdactiveRead := none } = 999) ∧
    ((wait_for_idle obs deadline).1.completed = true →
      (obs (wait_for_idle obs deadline).2).cmdactiveRead ≠ none) ∧
    ((obs (wait_for_idle obs deadline).2).cmdactiveRead = none →
      (wait_for_idle obs deadline).1.completed = false ∧
      (wait_for_idle obs deadline).1.needs_input = true) := by
  obtain ⟨g1, g2⟩ := C6_wait_for_idle obs deadline
  refine ⟨fun qb => rfl, ?_, ?_⟩
  · intro hc hnone
    have h0 := (g1 hc).2
    rw [pollCmdactive, hnone] at h0
    simp at h0
  · intro hnone
    have hcf : (wait_for_idle obs deadline).1.completed = false := by
      by_contra h
      have hc : (wait_for_idle obs deadline).1.completed = true := by
        cases hx : (wait_for_idle obs deadline).1.completed
        · exact absurd hx h
        · rfl
      have h0 := (g1 hc).2
      rw [pollCmdactive, hnone] at h0
      simp at h0
    obtain ⟨_, h2, _⟩ := g2 hcf
    refine ⟨hcf, ?_⟩
    rw [h2, pollCmdactive, hnone]
    simp

/-- Poll schedule for the C10 witness: the CMDACTIVE read always raises. -/
def obsC10 : Nat → PollObs := fun _ =>
  { isQuiescentRead := some true, cmdactiveRead := none }

/-- Witness for C10 at a concrete schedule: the quiescent flag is true on
every poll, yet the failed counter read forces a timeout with
`needs_input = true`. -/
theorem C10_wait_for_idle_sentinel_witness :
    (wait_for_idle obsC10 1).1.completed = false ∧
    (wait_for_idle obsC10 1).1.needs_input = true :=
  (C10_wait_for_idle_sentinel obsC10 1).2.2 (by decide)

/-- The backoff schedule stays within `[0.05, 0.8]` seconds. -/
lemma com_delay_bounds (n : Nat) : 1/20 ≤ com_delay n ∧ com_delay n ≤ 4/5 := by
  induction n with
  | zero => constructor <;> norm_num [com_delay]
  | succ n ih =>
      constructor
      · rw [com_delay]
        apply le_min
        · norm_num
        · nlinarith [ih.1]
      · rw [com_delay]
        exact min_le_left _ _

/-- Invariant of the `com_retry` loop, proved along the fuel recursion:
`k` calls were already made and the current delay sits at position `j` of
the schedule. -/
lemma com_retry_go_spec {α : Type} (fn : Nat → CallOutcome α) :
    ∀ remaining k j,
      k ≤ (com_retry_go fn remaining k (com_delay j)).calls ∧
      (com_retry_go fn remaining k (com_delay j)).calls ≤ k + remaining ∧
      (∀ m, k ≤ m → m + 1 < (com_retry_go fn remaining k (com_delay j)).calls →
        fn m = CallOutcome.raise true) ∧
      (∀ v, (com_retry_go fn remaining k (com_delay j)).result = RetryResult.ok v →
        fn ((com_retry_go fn remaining k (com_delay j)).calls - 1) = CallOutcome.ok v) ∧
      ((com_retry_go fn remaining k (com_delay j)).result = RetryResult.raised false →
        fn ((com_retry_go fn remaining k (com_delay j)).calls - 1) = CallOutcome.raise false) ∧
      ((com_retry_go fn remaining k (com_delay j)).result = RetryResult.raised true →
        ∀ m, k ≤ m → m < (com_retry_go fn remaining k (com_delay j)).calls →
          fn m = CallOutcome.raise true) ∧
      (com_retry_go fn remaining k (com_delay j)).sleeps.length ≤ remaining ∧
      (∀ i, (com_retry_go fn remaining k (com_delay j)).sleeps.get? i = none ∨
        (com_retry_go fn remaining k (com_delay j)).sleeps.get? i = some (com_delay (j + i))) := by
  intro remaining
  induction remaining with
  | zero =>
      intro k j
      simp only [com_retry_go]
      refine ⟨le_refl k, by omega, fun m h1 h2 => by omega, ?_, ?_, ?_, by simp, by simp⟩
      · intro v hv
        by_cases hk : k = 0 <;> simp [hk] at hv
      · intro hv
        by_cases hk : k = 0 <;> simp [hk] at hv
      · intro _ m h1 h2
        omega
  | succ remaining ih =>
      intro k j
      simp only [com_retry_go]
      cases hfn : fn k with
      | ok v =>
          simp only
          refine ⟨by omega, by omega, fun m h1 h2 => by omega, ?_, by simp, by simp, by simp, by simp⟩
          intro v' hv'
          obtain rfl : v = v' := by simpa using hv'
          simpa using hfn
      | raise busy =>
          cases busy with
          | false =>
              simp only
              refine ⟨by omega, by omega, fun m h1 h2 => by omega, by simp, ?_, by simp, by simp, by simp⟩
              intro _
              simpa using hfn
          | true =>
              simp only
              have hdelay : min (4/5 : ℚ) (com_delay j * (8/5)) = com_delay (j + 1) := rfl
              rw [hdelay]
              obtain ⟨g1, g2, g3, g4, g5, g6, g7, g8⟩ := ih (k + 1) (j + 1)
              refine ⟨by omega, by omega, ?_, g4, g5, ?_, by simpa using g7, ?_⟩
              · intro m h1 h2
                rcases Nat.eq_or_lt_of_le h1 with h | h
                · rw [← h]; exact hfn
                · exact g3 m h h2
              · intro hres m h1 h2
                rcases Nat.eq_or_lt_of_le h1 with h | h
                · rw [← h]; exact hfn
                · exact g6 hres m h h2
              · intro i
                cases i with
                | zero => simp
                | succ i =>
                    have := g8 i
                    simpa [Nat.add_assoc, Nat.add_comm 1 i] using this

/-- Claim C5: `com_retry` makes at most 15 calls; every non-final call
raised the callee-busy error (so only that error class is retried, and a
non-busy exception propagates immediately after the call that raised it);
the sleeps performed follow exactly the exponential schedule starting at
0.05 s, growing by the factor 1.6 and capped at 0.8 s. -/
theorem C5_com_retry {α : Type} (fn : Nat → CallOutcome α) :
    (com_retry fn).calls ≤ 15 ∧
    (∀ m, m + 1 < (com_retry fn).calls → fn m = CallOutcome.raise true) ∧
    (∀ v, (com_retry fn).result = RetryResult.ok v →
      fn ((com_retry fn).calls - 1) = CallOutcome.ok v) ∧
    ((com_retry fn).result = RetryResult.raised false →
      fn ((com_retry fn).calls - 1) = CallOutcome.raise false) ∧
    ((com_retry fn).result = RetryResult.raised true →
      ∀ m < (com_retry fn).calls, fn m = CallOutcome.raise true) ∧
    (com_retry fn).sleeps.length ≤ 15 ∧
    (∀ i, (com_retry fn).sleeps.get? i = none ∨
      (com_retry fn).sleeps.get? i = some (com_delay i)) ∧
    (∀ d ∈ (com_retry fn).sleeps, 1/20 ≤ d ∧ d ≤ 4/5) ∧
    com_delay 0 = 1/20 := by
  have e : com_retry fn = com_retry_go fn 15 0 (com_delay 0) := rfl
  obtain ⟨g1, g2, g3, g4, g5, g6, g7, g8⟩ := com_retry_go_spec fn 15 0 0
  rw [e]
  refine ⟨by omega, fun m hm => g3 m (Nat.zero_le m) hm, g4, g5,
    fun h m hm => g6 h m (Nat.zero_le m) hm, g7, ?_, ?_, rfl⟩
  · intro i
    simpa using g8 i
  · intro d hd
    obtain ⟨i, hi⟩ := List.get_of_mem hd
    rcases g8 i.1 with h | h
    · rw [List.get?_eq_get i.2] at h
      simp at h
    · rw [List.get?_eq_get i.2, hi] at h
      obtain rfl : d = com_delay (0 + i.1) := by simpa using h
      exact com_delay_bounds (0 + i.1)

/-- Call schedule for the C5 witness: busy three times, then a value. -/
def fnC5 : Nat → CallOutcome Nat := fun k =>
  if k < 3 then CallOutcome.raise true else CallOutcome.ok 7

/-- Witness for C5 at a concrete schedule: the two non-final calls were
busy errors, and the final call produced the returned value. -/
theorem C5_com_retry_witness :
    fnC5 0 = CallOutcome.raise true ∧
    fnC5 1 = CallOutcome.raise true ∧
    fnC5 ((com_retry fnC5).calls - 1) = CallOutcome.ok 7 :=
  ⟨(C5_com_retry fnC5).2.1 0 (by decide),
   (C5_com_retry fnC5).2.1 1 (by decide),
   (C5_com_retry fnC5).2.2.1 7 (by decide)⟩

/-- Counterexample to claim C1 as stated: when the implied-selection check
*timed out* (here with a start event reporting count 5 already seen), the
code still enters the interactive prompt phase, although the claim allows
the prompt only when the check did not time out and returned count zero. -/
theorem C1_counterexample :
    selection_phase2 true 5 (some 0) = SelPhase2.promptUser ∧
    ¬(true = false ∧ (5 : Int) = 0) := by
  constructor
  · rfl
  · intro h
    simp at h

/-- Claim C1 as amended: the prompt phase is entered exactly when the
implied check did not return a positive count without timing out (so also
on timeout) and the CMDACTIVE read yielded zero; with the counter
non-zero in that situation, the operation raises instead of prompting. -/
theorem C1_selection_phase2 (timed_out : Bool) (count : Int) (r : Option Int) :
    (selection_phase2 timed_out count r = SelPhase2.promptUser ↔
      ¬(timed_out = false ∧ 0 < count) ∧ r.getD 0 = 0) ∧
    (selection_phase2 timed_out count r = SelPhase2.raiseBusy ↔
      ¬(timed_out = false ∧ 0 < count) ∧ r.getD 0 ≠ 0) := by
  unfold selection_phase2
  by_cases h1 : timed_out = false ∧ 0 < count
  · simp [h1]
  · by_cases h2 : r.getD 0 = 0 <;> simp [h1, h2]

/-- Witness for C1 at a concrete input: a non-timed-out zero count with a
zero CMDACTIVE read enters the prompt phase; with CMDACTIVE 1 it raises. -/
theorem C1_selection_phase2_witness :
    selection_phase2 false 0 (some 0) = SelPhase2.promptUser ∧
    selection_phase2 false 0 (some 1) = SelPhase2.raiseBusy :=
  ⟨(C1_selection_phase2 false 0 (some 0)).1.mpr (by decide),
   (C1_selection_phase2 false 0 (some 1)).2.mpr (by decide)⟩

/-- A Python dict assignment makes the key map to the new value. -/
lemma find_omInsert (xs : List (String × OutputStream)) (k : String) (v : OutputStream) :
    (omInsert xs k v).find? (fun kv => kv.1 = k) = some (k, v) := by
  induction xs with
  | nil => simp [omInsert, List.find?]
  | cons hd t ih =>
      obtain ⟨k', v'⟩ := hd
      by_cases h : k' = k
      · subst h
        simp [omInsert, List.find?]
      · simp [omInsert, h, List.find?, ih]

/-- Looking up the inserted stream in the updated manager. -/
lemma omGet_insert (m : OutputStreamManager) (sid : String) (s2 : OutputStream) :
    omGet { m with streams := omInsert m.streams sid s2 } sid = some s2 := by
  unfold omGet
  rw [find_omInsert]
  rfl

/-- Counterexample to claim C2 as stated: the stored cursor is not
monotonically non-decreasing.  A logfile stream started at cursor 5 (the
file size at start, as `start_logging` does), after one `read_new` call in
which the caller passes the older cursor 0 (as `get_new_output_since`
permits), has its stored cursor moved backwards from 5 to 2. -/
theorem C2_counterexample :
    (omGet (start_logfile_stream { streams := [], default_stream_id := none }
        "A" "p.log" 5 true) "A").map OutputStream.cursor = some 5 ∧
    (omGet (read_new (start_logfile_stream { streams := [], default_stream_id := none }
        "A" "p.log" 5 true) (fun _ => { present := true, size := 5 }) "A" 0 2).2
       "A").map OutputStream.cursor = some 2 ∧
    (2 : Nat) < 5 := by
  decide

/-- Claim C2 as amended: `read_new` changes the stored cursor only when it
actually read data, and then sets it to the returned `new_cursor`, which
never exceeds the file size observed during that read; an empty read
leaves the manager (hence every stored cursor) unchanged. -/
theorem C2_read_new_cursor (m : OutputStreamManager) (fileOf : String → FileSt)
    (sid : String) (cursor max_bytes : Nat) (s : OutputStream)
    (hs : omGet m sid = some s) :
    ((read_new m fileOf sid cursor max_bytes).1.text_len = 0 →
      (read_new m fileOf sid cursor max_bytes).2 = m) ∧
    ((read_new m fileOf sid cursor max_bytes).1.text_len ≠ 0 →
      ∃ path, s.logfile_path = some path ∧
        (read_new m fileOf sid cursor max_bytes).1.new_cursor ≤ (fileOf path).size ∧
        omGet (read_new m fileOf sid cursor max_bytes).2 sid =
          some { s with
                   cursor := (read_new m fileOf sid cursor max_bytes).1.new_cursor
                   ring := ringAppend 200 s.ring
                     (read_new m fileOf sid cursor max_bytes).1.text_len }) := by
  unfold read_new
  simp only [hs]
  by_cases hm : s.mode = StreamMode.logfile
  · simp only [if_pos hm]
    cases hp : s.logfile_path with
    | none => simp
    | some path =>
        by_cases hpres : (fileOf path).present = false
        · simp [hpres]
        · simp only [if_neg hpres]
          by_cases hz : min max_bytes ((fileOf path).size - min cursor (fileOf path).size) = 0
          · simp [hz]
          · simp only [if_neg hz]
            refine ⟨by simp [hz], ?_⟩
            intro _
            refine ⟨path, rfl, ?_, ?_⟩
            · have h1 : min cursor (fileOf path).size ≤ (fileOf path).size :=
                min_le_right _ _
              have h2 : min max_bytes ((fileOf path).size - min cursor (fileOf path).size) ≤
                  (fileOf path).size - min cursor (fileOf path).size :=
                min_le_right _ _
              omega
            · dsimp only
              exact omGet_insert m sid _
  · simp [hm]

/-- Witness manager for the C2 amended theorem. -/
def mgrW2 : OutputStreamManager :=
  start_logfile_stream { streams := [], default_stream_id := none } "W" "w.log" 0 true

def fileW2 : String → FileSt := fun _ => { present := true, size := 10 }

def sW2 : OutputStream :=
  { stream_id := "W", mode := StreamMode.logfile, logfile_path := some "w.log"
    cursor := 0, ring := [], started_by_server := true }

/-- Witness for the amended C2 at a concrete input: a read of 4 of 10
bytes sets the stored cursor to the returned cursor 4, within the file
size. -/
theorem C2_read_new_cursor_witness :
    ∃ path, sW2.logfile_path = some path ∧
      (read_new mgrW2 fileW2 "W" 0 4).1.new_cursor ≤ (fileW2 path).size ∧
      omGet (read_new mgrW2 fileW2 "W" 0 4).2 "W" =
        some { sW2 with
                 cursor := (read_new mgrW2 fileW2 "W" 0 4).1.new_cursor
                 ring := ringAppend 200 sW2.ring
                   (read_new mgrW2 fileW2 "W" 0 4).1.text_len } :=
  (C2_read_new_cursor mgrW2 fileW2 "W" 0 4 sW2 (by decide)).2 (by decide)

/-- Counterexample to claim C3 as stated: after a `truncated = true` read
(5 of 10 bytes), repeating the call with the returned cursor and an
unchanged file (no new data appended) returns five more bytes of old
data — not empty text with the same cursor. -/
theorem C3_counterexample :
    (read_new (start_logfile_stream { streams := [], default_stream_id := none }
        "B" "q.log" 0 true) (fun _ => { present := true, size := 10 }) "B" 0 5).1 =
      { text_len := 5, new_cursor := 5, truncated := true } ∧
    (read_new
        (read_new (start_logfile_stream { streams := [], default_stream_id := none }
          "B" "q.log" 0 true) (fun _ => { present := true, size := 10 }) "B" 0 5).2
        (fun _ => { present := true, size := 10 }) "B" 5 5).1 =
      { text_len := 5, new_cursor := 10, truncated := false } ∧
    (5 : Nat) ≠ 0 := by
  decide

/-- Claim C3 as amended: on a logfile stream whose file exists, `read_new`
never returns a `new_cursor` beyond the file size; and provided the first
call reported `truncated = false`, repeating it with the returned cursor,
the same `max_bytes` and the file unchanged returns empty text, the same
cursor, `truncated = false`, and leaves the manager unchanged. -/
theorem C3_read_new_repeat (m : OutputStreamManager) (fileOf : String → FileSt)
    (sid : String) (cursor max_bytes : Nat) (s : OutputStream) (path : String)
    (hs : omGet m sid = some s) (hmode : s.mode = StreamMode.logfile)
    (hpath : s.logfile_path = some path) (hpres : (fileOf path).present = true) :
    (read_new m fileOf sid cursor max_bytes).1.new_cursor ≤ (fileOf path).size ∧
    ((read_new m fileOf sid cursor max_bytes).1.truncated = false →
      read_new (read_new m fileOf sid cursor max_bytes).2 fileOf sid
          (read_new m fileOf sid cursor max_bytes).1.new_cursor max_bytes =
        ({ text_len := 0
           new_cursor := (read_new m fileOf sid cursor max_bytes).1.new_cursor
           truncated := false }, (read_new m fileOf sid cursor max_bytes).2)) := by
  have hpres2 : ¬((fileOf path).present = false) := by simp [hpres]
  have hc_le : min cursor (fileOf path).size ≤ (fileOf path).size := min_le_right _ _
  unfold read_new
  simp only [hs, if_pos hmode, hpath, if_neg hpres2]
  by_cases hz : min max_bytes ((fileOf path).size - min cursor (fileOf path).size) = 0
  · simp only [if_pos hz]
    refine ⟨hc_le, ?_⟩
    intro _
    simp only [hs, if_pos hmode, hpath, if_neg hpres2]
    have hcc : min (min cursor (fileOf path).size) (fileOf path).size =
        min cursor (fileOf path).size := Nat.min_eq_left hc_le
    rw [hcc, if_pos hz]
  · simp only [if_neg hz]
    have h2 : min max_bytes ((fileOf path).size - min cursor (fileOf path).size) ≤
        (fileOf path).size - min cursor (fileOf path).size := min_le_right _ _
    refine ⟨by omega, ?_⟩
    intro htr
    have hnc : min cursor (fileOf path).size +
        min max_bytes ((fileOf path).size - min cursor (fileOf path).size) =
        (fileOf path).size := by
      rcases Bool.and_eq_false_iff.mp htr with h | h
      · have : ¬(min cursor (fileOf path).size +
            min max_bytes ((fileOf path).size - min cursor (fileOf path).size) <
            (fileOf path).size) := by
          simpa using h
        omega
      · have hne : min max_bytes ((fileOf path).size - min cursor (fileOf path).size) ≠
            max_bytes := by simpa using h
        have : min max_bytes ((fileOf path).size - min cursor (fileOf path).size) =
            (fileOf path).size - min cursor (fileOf path).size := by
          rcases Nat.le_total max_bytes ((fileOf path).size - min cursor (fileOf path).size)
            with hle | hle
          · exact absurd (Nat.min_eq_left hle) hne
          · exact Nat.min_eq_right hle
        omega
    rw [omGet_insert]
    simp only [if_pos hmode, hpath, if_neg hpres2]
    rw [hnc]
    have : min (fileOf path).size (fileOf path).size = (fileOf path).size :=
      Nat.min_self _
    rw [this]
    simp

/-- Witness manager for the C3 amended theorem. -/
def mgrW3 : OutputStreamManager :=
  start_logfile_stream { streams := [], default_stream_id := none } "V" "v.log" 0 true

def fileW3 : String → FileSt := fun _ => { present := true, size := 10 }

def sW3 : OutputStream :=
  { stream_id := "V", mode := StreamMode.logfile, logfile_path := some "v.log"
    cursor := 0, ring := [], started_by_server := true }

/-- Witness for the amended C3 at a concrete input: a full read of the 10
byte file (max_bytes 50, truncated false), then the repeat call returns
empty text, the same cursor, and no truncation. -/
theorem C3_read_new_repeat_witness :
    read_new (read_new mgrW3 fileW3 "V" 0 50).2 fileW3 "V"
        (read_new mgrW3 fileW3 "V" 0 50).1.new_cursor 50 =
      ({ text_len := 0
         new_cursor := (read_new mgrW3 fileW3 "V" 0 50).1.new_cursor
         truncated := false }, (read_new mgrW3 fileW3 "V" 0 50).2) :=
  (C3_read_new_repeat mgrW3 fileW3 "V" 0 50 sW3 "v.log"
    (by decide) (by decide) (by decide) (by decide)).2 (by decide)

/-- Counterexample to claim C4 as stated: the empty string contains zero
marker-tagged lines, yet the extractor raises the distinct "No output
text to parse" error, not the "marker not found" one. -/
theorem C4_counterexample :
    extract_mcp_json "" = Except.error ExtractErr.noOutput ∧
    ExtractErr.noOutput ≠ ExtractErr.markerNotFound :=
  ⟨rfl, by decide⟩

/-- Claim C4 as amended: on *non-empty* text with no tagged line the
extractor raises "marker not found" (empty text raises a distinct
"no output" error); otherwise it classifies the *last* tagged line:
empty payload after the tag, unparseable payload, and a payload parsing
to a non-object raise their three distinct errors, and an object payload
is returned. -/
theorem C4_extract_mcp_json :
    (∀ text : String, text ≠ "" →
      (∀ l ∈ pySplitlines text.data, containsSub l MCP_JSON_MARKER = false) →
      extract_mcp_json text = Except.error ExtractErr.markerNotFound) ∧
    (∀ text : String, text ≠ "" →
      ∀ line, lastTaggedLine (pySplitlines text.data) = some line →
      extract_mcp_json text = payloadClassify line) ∧
    (∀ line raw, afterLastMarker line = some raw → pyStrip raw = [] →
      payloadClassify line = Except.error ExtractErr.emptyPayload) ∧
    (∀ line raw, afterLastMarker line = some raw → pyStrip raw ≠ [] →
      json_loads (String.mk (pyStrip raw)) = none →
      payloadClassify line = Except.error ExtractErr.malformed) ∧
    (∀ line raw fields, afterLastMarker line = some raw →
      json_loads (String.mk (pyStrip raw)) = some (Jv.jobj fields) →
      payloadClassify line = Except.ok (Jv.jobj fields)) ∧
    (∀ line raw v, afterLastMarker line = some raw →
      json_loads (String.mk (pyStrip raw)) = some v → (∀ fields, v ≠ Jv.jobj fields) →
      payloadClassify line = Except.error ExtractErr.notAnObject) := by
  have hempty : ∀ l : List Char, l.isEmpty = true → json_loads (String.mk l) = none := by
    intro l hl
    cases l with
    | nil => rfl
    | cons c t => simp at hl
  refine ⟨?_, ?_, ?_, ?_, ?_, ?_⟩
  · intro text ht hall
    unfold extract_mcp_json
    rw [if_neg ht]
    have hfil : (pySplitlines text.data).filter
        (fun l => containsSub l MCP_JSON_MARKER) = [] := by
      rw [List.filter_eq_nil_iff]
      intro a ha
      simp [hall a ha]
    unfold lastTaggedLine
    rw [hfil]
    rfl
  · intro text ht line hline
    unfold extract_mcp_json
    rw [if_neg ht, hline]
  · intro line raw hraw hstrip
    unfold payloadClassify
    rw [hraw]
    simp [hstrip]
  · intro line raw hraw hne hjson
    unfold payloadClassify
    rw [hraw]
    have he : (pyStrip raw).isEmpty = false := by
      cases hx : pyStrip raw
      · exact absurd hx hne
      · rfl
    simp [he, hjson]
  · intro line raw fields hraw hjson
    unfold payloadClassify
    rw [hraw]
    have hne : (pyStrip raw).isEmpty = false := by
      cases he : (pyStrip raw).isEmpty
      · rfl
      · rw [hempty (pyStrip raw) he] at hjson
        cases hjson
    simp [hne, hjson]
  · intro line raw v hraw hjson hnotobj
    unfold payloadClassify
    rw [hraw]
    have hne : (pyStrip raw).isEmpty = false := by
      cases he : (pyStrip raw).isEmpty
      · rfl
      · rw [hempty (pyStrip raw) he] at hjson
        cases hjson
    cases v with
    | jobj fields => exact absurd rfl (hnotobj fields)
    | jnull => simp [hne, hjson]
    | jbool b => simp [hne, hjson]
    | jnum lex => simp [hne, hjson]
    | jstr s => simp [hne, hjson]
    | jarr elems => simp [hne, hjson]

/-- Witness for the amended C4 at concrete inputs: one value per failure
mode, and the last of two tagged lines winning. -/
theorem C4_extract_mcp_json_witness :
    extract_mcp_json "no marker" = Except.error ExtractErr.markerNotFound ∧
    extract_mcp_json "[MCP:JSON]   " = Except.error ExtractErr.emptyPayload ∧
    extract_mcp_json "[MCP:JSON]\x7bbroken" = Except.error ExtractErr.malformed ∧
    extract_mcp_json "[MCP:JSON][1,2]" = Except.error ExtractErr.notAnObject ∧
    extract_mcp_json "a[MCP:JSON]\x7b\"a\":1\x7d\nb[MCP:JSON]\x7b\"b\":2\x7d" =
      Except.ok (Jv.jobj [("b", Jv.jnum "2")]) :=
  ⟨C4_extract_mcp_json.1 "no marker" (by decide) (by decide), rfl, rfl, rfl, rfl⟩

/-- Every action of the attach sweep is an attach. -/
lemma attachSweep_isAttach (f : String → Bool) (ps : List String) :
    ∀ a ∈ (attachSweep f ps).1, ∃ p, a = ConnAction.attach p := by
  induction ps with
  | nil => simp [attachSweep]
  | cons p rest ih =>
      intro a ha
      by_cases h : f p
      · rw [attachSweep, if_pos h] at ha
        simp only [List.mem_singleton] at ha
        exact ⟨p, ha⟩
      · rw [attachSweep, if_neg h] at ha
        simp only [List.mem_cons] at ha
        rcases ha with ha | ha
        · exact ⟨p, ha⟩
        · exact ih a ha

/-- Every action of the Dispatch sweep is a Dispatch of a dotted candidate. -/
lemma dispatchSweep_isDispatch (f : String → Bool) (ps : List String) :
    ∀ a ∈ (dispatchSweep f ps).1,
      ∃ p, a = ConnAction.dispatch p ∧ hasDot p = true ∧ p ∈ ps := by
  induction ps with
  | nil => simp [dispatchSweep]
  | cons p rest ih =>
      intro a ha
      by_cases h1 : hasDot p = false
      · rw [dispatchSweep, if_pos h1] at ha
        obtain ⟨q, hq1, hq2, hq3⟩ := ih a ha
        exact ⟨q, hq1, hq2, List.mem_cons_of_mem p hq3⟩
      · have h1t : hasDot p = true := by
          cases hx : hasDot p
          · exact absurd hx h1
          · rfl
        by_cases h2 : f p
        · rw [dispatchSweep, if_neg h1, if_pos h2] at ha
          simp only [List.mem_singleton] at ha
          exact ⟨p, ha, h1t, List.mem_cons_self p rest⟩
        · rw [dispatchSweep, if_neg h1, if_neg h2] at ha
          simp only [List.mem_cons] at ha
          rcases ha with ha | ha
          · exact ⟨p, ha, h1t, List.mem_cons_self p rest⟩
          · obtain ⟨q, hq1, hq2, hq3⟩ := ih a ha
            exact ⟨q, hq1, hq2, List.mem_cons_of_mem p hq3⟩

/-- Every action of the post-launch wait loop is an attach. -/
lemma launchWaitLoop_isAttach (att2 : Nat → String → Bool) (ps : List String) :
    ∀ n r, ∀ a ∈ (launchWaitLoop att2 ps r n).1, ∃ p, a = ConnAction.attach p := by
  intro n
  induction n with
  | zero => simp [launchWaitLoop]
  | succ n ih =>
      intro r a ha
      by_cases h : (attachSweep (att2 r) ps).2 = true
      · rw [launchWaitLoop, if_pos h] at ha
        exact attachSweep_isAttach (att2 r) ps a ha
      · rw [launchWaitLoop, if_neg h] at ha
        rcases List.mem_append.mp ha with ha | ha
        · exact attachSweep_isAttach (att2 r) ps a ha
        · exact ih (r + 1) a ha

/-- No Dispatch action in an attach sweep. -/
lemma attachSweep_no_dispatch (f : String → Bool) (ps : List String) (p : String) :
    ConnAction.dispatch p ∉ (attachSweep f ps).1 := by
  intro h
  obtain ⟨q, hq⟩ := attachSweep_isAttach f ps _ h
  exact ConnAction.noConfusion hq

/-- No launch action in an attach sweep. -/
lemma attachSweep_no_launch (f : String → Bool) (ps : List String) :
    ConnAction.launchExe ∉ (attachSweep f ps).1 := by
  intro h
  obtain ⟨q, hq⟩ := attachSweep_isAttach f ps _ h
  exact ConnAction.noConfusion hq

/-- No Dispatch action in the post-launch wait loop. -/
lemma launchWaitLoop_no_dispatch (att2 : Nat → String → Bool) (ps : List String)
    (n r : Nat) (p : String) :
    ConnAction.dispatch p ∉ (launchWaitLoop att2 ps r n).1 := by
  intro h
  obtain ⟨q, hq⟩ := launchWaitLoop_isAttach att2 ps n r _ h
  exact ConnAction.noConfusion hq

/-- No launch action in the Dispatch sweep. -/
lemma dispatchSweep_no_launch (f : String → Bool) (ps : List String) :
    ConnAction.launchExe ∉ (dispatchSweep f ps).1 := by
  intro h
  obtain ⟨q, hq, _, _⟩ := dispatchSweep_isDispatch f ps _ h
  exact ConnAction.noConfusion hq

/-- Membership facts about phase 2: any Dispatch action implies both
guards held, and the candidate has a dot. -/
lemma connectDispatchPart_mem (aol : Bool) (env : ConnectEnv)
    (f : String → Bool) (ps : List String) :
    ∀ a ∈ (connectDispatchPart aol env f ps).1,
      (∃ p, a = ConnAction.dispatch p ∧ hasDot p = true ∧ p ∈ ps) ∧
      aol = true ∧ (env.target_major.isSome || env.use_dispatch_env) = true := by
  intro a ha
  unfold connectDispatchPart at ha
  by_cases h : (aol && (env.target_major.isSome || env.use_dispatch_env)) = true
  · rw [if_pos h] at ha
    rw [Bool.and_eq_true] at h
    exact ⟨dispatchSweep_isDispatch f ps a ha, h.1, h.2⟩
  · rw [if_neg h] at ha
    simp at ha

/-- Membership facts about phase 3: any action there implies both guards
held, and the action is the launch itself or a re-attach. -/
lemma connectLaunchPart_mem (aol : Bool) (env : ConnectEnv)
    (att2 : Nat → String → Bool) (ps : List String) :
    ∀ a ∈ (connectLaunchPart aol env att2 ps).1,
      (a = ConnAction.launchExe ∨ ∃ p, a = ConnAction.attach p) ∧
      aol = true ∧ env.acad_exe_present = true := by
  intro a ha
  unfold connectLaunchPart at ha
  by_cases h : (aol && env.acad_exe_present) = true
  · rw [if_pos h] at ha
    rw [Bool.and_eq_true] at h
    simp only [List.mem_cons] at ha
    rcases ha with ha | ha
    · exact ⟨Or.inl ha, h.1, h.2⟩
    · obtain ⟨p, hp⟩ := launchWaitLoop_isAttach att2 ps env.launch_rounds 0 a ha
      exact ⟨Or.inr ⟨p, hp⟩, h.1, h.2⟩
  · rw [if_neg h] at ha
    simp at ha

/-- Counterexample to claim C7 as stated: with a pinned target major (24)
and no attachable running instance, `connect` calls
`win32com.client.Dispatch("AutoCAD.Application.24")` — an ambient
create-new-instance-by-name activation the claim says never happens. -/
theorem C7_counterexample :
    ConnAction.dispatch "AutoCAD.Application.24" ∈
      (connect true
        { target_major := some 24, curver_progid := none, use_dispatch_env := false
          acad_exe_present := false, launch_rounds := 0 }
        (fun _ => false) (fun _ => false) (fun _ _ => false)).1 := by
  decide

/-- Claim C7 as amended: the attach sweep over all candidates always runs
first and its success suppresses every fallback; the ambient by-name
Dispatch activation *can* happen, but only when `attach_or_launch` holds,
a target major is pinned or the dispatch environment flag is set, no
candidate was attachable, and only against candidates containing a dot
(which includes the unversioned ProgID); the explicit-executable-path
launch happens only when `attach_or_launch` holds, the executable is
configured and present, and no candidate was attachable. -/
theorem C7_connect (aol : Bool) (env : ConnectEnv)
    (attachOk dispatchOk : String → Bool) (att2 : Nat → String → Bool) :
    ((attachSweep attachOk (get_acad_progids env.target_major env.curver_progid)).2 = true →
      connect aol env attachOk dispatchOk att2 =
        ((attachSweep attachOk (get_acad_progids env.target_major env.curver_progid)).1,
         true) ∧
      ∀ a ∈ (connect aol env attachOk dispatchOk att2).1, ∃ p, a = ConnAction.attach p) ∧
    (∀ p, ConnAction.dispatch p ∈ (connect aol env attachOk dispatchOk att2).1 →
      aol = true ∧ (env.target_major.isSome || env.use_dispatch_env) = true ∧
      hasDot p = true ∧
      (attachSweep attachOk (get_acad_progids env.target_major env.curver_progid)).2 ≠
        true) ∧
    (ConnAction.launchExe ∈ (connect aol env attachOk dispatchOk att2).1 →
      aol = true ∧ env.acad_exe_present = true ∧
      (attachSweep attachOk (get_acad_progids env.target_major env.curver_progid)).2 ≠
        true) ∧
    (∃ tail, (connect aol env attachOk dispatchOk att2).1 =
      (attachSweep attachOk (get_acad_progids env.target_major env.curver_progid)).1 ++
        tail) := by
  have hconn : connect aol env attachOk dispatchOk att2 =
      (let ps := get_acad_progids env.target_major env.curver_progid
       if (attachSweep attachOk ps).2 then ((attachSweep attachOk ps).1, true)
       else if (connectDispatchPart aol env dispatchOk ps).2 then
         ((attachSweep attachOk ps).1 ++ (connectDispatchPart aol env dispatchOk ps).1, true)
       else
         ((attachSweep attachOk ps).1 ++ (connectDispatchPart aol env dispatchOk ps).1 ++
            (connectLaunchPart aol env att2 ps).1,
          (connectLaunchPart aol env att2 ps).2)) := rfl
  set ps := get_acad_progids env.target_major env.curver_progid with hps
  by_cases h1 : (attachSweep attachOk ps).2 = true
  · rw [hconn]
    simp only [if_pos h1]
    refine ⟨fun _ => ⟨trivial, attachSweep_isAttach attachOk ps⟩, ?_, ?_, ⟨[], by simp⟩⟩
    · intro p hp
      exact absurd hp (attachSweep_no_dispatch attachOk ps p)
    · intro hp
      exact absurd hp (attachSweep_no_launch attachOk ps)
  · rw [hconn]
    simp only [if_neg h1]
    refine ⟨fun h => absurd h h1, ?_⟩
    by_cases h2 : (connectDispatchPart aol env dispatchOk ps).2 = true
    · simp only [if_pos h2]
      refine ⟨?_, ?_, ?_⟩
      · intro p hp
        rcases List.mem_append.mp hp with hp | hp
        · exact absurd hp (attachSweep_no_dispatch attachOk ps p)
        · obtain ⟨⟨q, hq1, hq2, _⟩, ha, hb⟩ := connectDispatchPart_mem aol env dispatchOk ps _ hp
          cases hq1
          exact ⟨ha, hb, hq2, h1⟩
      · intro hp
        rcases List.mem_append.mp hp with hp | hp
        · exact absurd hp (attachSweep_no_launch attachOk ps)
        · obtain ⟨hq, _, _⟩ := connectDispatchPart_mem aol env dispatchOk ps _ hp
          rcases hq with ⟨q, hq1, _, _⟩
          exact ConnAction.noConfusion hq1
      · exact ⟨(connectDispatchPart aol env dispatchOk ps).1, rfl⟩
    · simp only [if_neg h2]
      refine ⟨?_, ?_, ?_⟩
      · intro p hp
        rcases List.mem_append.mp hp with hp | hp
        · rcases List.mem_append.mp hp with hp | hp
          · exact absurd hp (attachSweep_no_dispatch attachOk ps p)
          · obtain ⟨⟨q, hq1, hq2, _⟩, ha, hb⟩ :=
              connectDispatchPart_mem aol env dispatchOk ps _ hp
            cases hq1
            exact ⟨ha, hb, hq2, h1⟩
        · obtain ⟨hq, _, _⟩ := connectLaunchPart_mem aol env att2 ps _ hp
          rcases hq with hq | ⟨q, hq⟩
          · exact ConnAction.noConfusion hq
          · exact ConnAction.noConfusion hq
      · intro hp
        rcases List.mem_append.mp hp with hp | hp
        · rcases List.mem_append.mp hp with hp | hp
          · exact absurd hp (attachSweep_no_launch attachOk ps)
          · obtain ⟨hq, _, _⟩ := connectDispatchPart_mem aol env dispatchOk ps _ hp
            rcases hq with ⟨q, hq1, _, _⟩
            exact ConnAction.noConfusion hq1
        · obtain ⟨_, ha, hb⟩ := connectLaunchPart_mem aol env att2 ps _ hp
          exact ⟨ha, hb, h1⟩
      · exact ⟨(connectDispatchPart aol env dispatchOk ps).1 ++
          (connectLaunchPart aol env att2 ps).1, by simp⟩

/-- Witness for the amended C7 at a concrete input: with every candidate
attachable, `connect` performs only attach actions. -/
theorem C7_connect_witness :
    ∀ a ∈ (connect true
        { target_major := none, curver_progid := none, use_dispatch_env := false
          acad_exe_present := false, launch_rounds := 0 }
        (fun _ => true) (fun _ => false) (fun _ _ => false)).1,
      ∃ p, a = ConnAction.attach p :=
  ((C7_connect true
      { target_major := none, curver_progid := none, use_dispatch_env := false
        acad_exe_present := false, launch_rounds := 0 }
      (fun _ => true) (fun _ => false) (fun _ _ => false)).1 (by decide)).2

/-- Counterexample to claim C8 as stated: with an empty `dict_name`,
`dict_keys` does raise a validation error, but only after
`_ensure_connected()` has already made calls into the endpoint — not
"before any call to the endpoint is made". -/
theorem C8_counterexample :
    (dict_keys_tool true "").outcome =
      SrvOutcome.validationError "dict_name must be non-empty" ∧
    (dict_keys_tool true "").calls = [SrvCall.ensureConn] ∧
    [SrvCall.ensureConn] ≠ ([] : List SrvCall) := by
  decide

/-- Claim C8 as amended: in each of the five dictionary tools, an empty
required string argument is rejected with a validation error before the
operation's script is sent to the endpoint (no `sendToEndpoint` in the
trace); the connection check — which itself calls the endpoint — runs
before that validation. -/
theorem C8_dict_validation (conn : Bool) (name key : String) (values_ok : Bool)
    (hc : conn = true) (h : name = "" ∨ key = "") :
    (name = "" →
      (∃ msg, (dict_keys_tool conn name).outcome = SrvOutcome.validationError msg) ∧
      SrvCall.sendToEndpoint ∉ (dict_keys_tool conn name).calls ∧
      (∃ msg, (dict_delete_tool conn name).outcome = SrvOutcome.validationError msg) ∧
      SrvCall.sendToEndpoint ∉ (dict_delete_tool conn name).calls) ∧
    ((∃ msg, (dict_xrecord_get_tool conn name key).outcome =
        SrvOutcome.validationError msg) ∧
      SrvCall.sendToEndpoint ∉ (dict_xrecord_get_tool conn name key).calls) ∧
    ((∃ msg, (dict_xrecord_set_tool conn name key values_ok).outcome =
        SrvOutcome.validationError msg) ∧
      SrvCall.sendToEndpoint ∉ (dict_xrecord_set_tool conn name key values_ok).calls) ∧
    ((∃ msg, (dict_xrecord_delete_tool conn name key).outcome =
        SrvOutcome.validationError msg) ∧
      SrvCall.sendToEndpoint ∉ (dict_xrecord_delete_tool conn name key).calls) := by
  subst hc
  have hTrue : ¬((true : Bool) = false) := by simp
  refine ⟨?_, ?_, ?_, ?_⟩
  · intro hn
    subst hn
    refine ⟨⟨_, rfl⟩, by decide, ⟨_, rfl⟩, by decide⟩
  · unfold dict_xrecord_get_tool
    rw [if_neg hTrue]
    by_cases hn : name = ""
    · rw [if_pos hn]
      exact ⟨⟨_, rfl⟩, by decide⟩
    · rw [if_neg hn]
      have hk : key = "" := h.resolve_left hn
      rw [if_pos hk]
      exact ⟨⟨_, rfl⟩, by decide⟩
  · unfold dict_xrecord_set_tool
    rw [if_neg hTrue]
    by_cases hn : name = ""
    · rw [if_pos hn]
      exact ⟨⟨_, rfl⟩, by decide⟩
    · rw [if_neg hn]
      have hk : key = "" := h.resolve_left hn
      rw [if_pos hk]
      exact ⟨⟨_, rfl⟩, by decide⟩
  · unfold dict_xrecord_delete_tool
    rw [if_neg hTrue]
    by_cases hn : name = ""
    · rw [if_pos hn]
      exact ⟨⟨_, rfl⟩, by decide⟩
    · rw [if_neg hn]
      have hk : key = "" := h.resolve_left hn
      rw [if_pos hk]
      exact ⟨⟨_, rfl⟩, by decide⟩

/-- Witness for the amended C8 at a concrete input: `dict_keys` with an
empty name yields a validation error without a script dispatch. -/
theorem C8_dict_validation_witness :
    (∃ msg, (dict_keys_tool true "").outcome = SrvOutcome.validationError msg) ∧
    SrvCall.sendToEndpoint ∉ (dict_keys_tool true "").calls ∧
    (∃ msg, (dict_xrecord_get_tool true "d" "").outcome =
      SrvOutcome.validationError msg) ∧
    SrvCall.sendToEndpoint ∉ (dict_xrecord_get_tool true "d" "").calls := by
  refine ⟨((C8_dict_validation true "" "k" true rfl (Or.inl rfl)).1 rfl).1,
    ((C8_dict_validation true "" "k" true rfl (Or.inl rfl)).1 rfl).2.1,
    (C8_dict_validation true "d" "" true rfl (Or.inr rfl)).2.1.1,
    (C8_dict_validation true "d" "" true rfl (Or.inr rfl)).2.1.2⟩

/-- Counterexample to claim C9 as stated: stream "A" (a server-started
logfile stream) is *not* the default at stop time (a lastprompt stream
"B" is), yet `stop_logging "A"` disables the endpoint's logging feature —
the claim requires the feature untouched in that case. -/
theorem C9_counterexample :
    (stop_logging (start_lastprompt_stream
        (start_logfile_stream { streams := [], default_stream_id := none }
          "A" "p.log" 0 true) "B") "A").2.2 = true ∧
    (start_lastprompt_stream
        (start_logfile_stream { streams := [], default_stream_id := none }
          "A" "p.log" 0 true) "B").default_stream_id = some "B" ∧
    some "B" ≠ some "A" := by
  decide

/-- Claim C9 as amended: `stop_logging` disables the logging feature
exactly when the stop succeeded, the stopped stream was a server-started
logfile stream, and the default stream *after the removal* is not a
logfile stream — regardless of whether the stopped stream was the
default, and even if a non-default logfile stream remains. -/
theorem C9_stop_logging (m : OutputStreamManager) (sid : String) :
    (stop_logging m sid).2.2 = true ↔
      ((stop_logging m sid).2.1 = true ∧
       ∃ s, omGet m sid = some s ∧ s.mode = StreamMode.logfile ∧
         s.started_by_server = true ∧
         ¬∃ d, get_default (stop_logging m sid).1 = some d ∧
           d.mode = StreamMode.logfile) := by
  cases hs : omGet m sid with
  | none =>
      simp only [stop_logging, hs]
      simp
  | some s0 =>
      simp only [stop_logging, hs]
      by_cases hcond : (om_stop m sid).2 = true ∧ s0.mode = StreamMode.logfile ∧
          s0.started_by_server = true
      · rw [if_pos hcond]
        cases hdef : get_default (om_stop m sid).1 with
        | none =>
            simp only [hdef]
            constructor
            · intro _
              refine ⟨hcond.1, s0, rfl, hcond.2.1, hcond.2.2, ?_⟩
              rintro ⟨d, hd, -⟩
              exact Option.noConfusion hd
            · intro _
              rfl
        | some d =>
            simp only [hdef]
            constructor
            · intro hb
              have hdm : ¬(d.mode = StreamMode.logfile) := by
                intro hx
                rw [Bool.not_eq_true', decide_eq_false_iff_not] at hb
                exact hb hx
              refine ⟨hcond.1, s0, rfl, hcond.2.1, hcond.2.2, ?_⟩
              rintro ⟨d2, hd2, hm2⟩
              obtain rfl : d = d2 := Option.some.inj hd2
              exact hdm hm2
            · rintro ⟨-, s1, hs1, -, -, hnod⟩
              rw [Bool.not_eq_true', decide_eq_false_iff_not]
              intro hx
              exact hnod ⟨d, rfl, hx⟩
      · rw [if_neg hcond]
        constructor
        · intro hx
          exact absurd hx (by simp)
        · rintro ⟨h1, s1, hs1, h2, h3, -⟩
          obtain rfl : s0 = s1 := Option.some.inj hs1
          exact absurd ⟨h1, h2, h3⟩ hcond

/-- Witness for the amended C9 at a concrete input: stopping the only
(default, server-started, logfile) stream disables the logging feature. -/
theorem C9_stop_logging_witness :
    (stop_logging (start_logfile_stream { streams := [], default_stream_id := none }
        "A" "p.log" 0 true) "A").2.2 = true :=
  (C9_stop_logging (start_logfile_stream { streams := [], default_stream_id := none }
      "A" "p.log" 0 true) "A").mpr
    ⟨by decide,
     { stream_id := "A", mode := StreamMode.logfile, logfile_path := some "p.log"
       cursor := 0, ring := [], started_by_server := true },
     by decide, by decide, by decide,
     fun hx => Option.noConfusion hx.choose_spec.1⟩


end AcadCmd
